import Mathlib

/-!
Verification development for the expense-tracking serverless handler of
`src/api/expense.js` and `src/api/expenses.js`: a shallow embedding of the
data model (Expense records, JSON-derived request bodies), the validation
routine, the date comparator and in-place sort of the GET branch, and the
full method dispatch of both handler modules, together with theorems about
the handlers' observable behaviour.
-/

namespace ExpenseApi

/-- JS whitespace recognised by `String.prototype.trim` and `parseFloat`
(ASCII fragment; no input in this development contains non-ASCII
whitespace). -/
def jsIsWhitespace (c : Char) : Bool :=
  c == ' ' || c == '\t' || c == '\n' || c == '\r' || c == '\x0b' || c == '\x0c'

/-- Remove trailing whitespace: drop a whitespace suffix, via the reverse. -/
def trimRight (l : List Char) : List Char :=
  (l.reverse.dropWhile jsIsWhitespace).reverse

/-- Remove leading and trailing whitespace from a character list. -/
def jsTrimChars (l : List Char) : List Char :=
  trimRight (l.dropWhile jsIsWhitespace)

/-- JavaScript `String.prototype.trim`. -/
def jsTrim (s : String) : String :=
  ⟨jsTrimChars s.data⟩

/-- A JSON-derived JavaScript value, as Vercel's body parser can produce for
a field of `req.body`; a key absent from the body destructures to
`undefined`. JSON numbers are modelled exactly as rationals (JSON cannot
produce `NaN` or `Infinity`). -/
inductive JSValue where
  | undefined
  | null
  | boolean (b : Bool)
  | number (q : Rat)
  | string (s : String)
deriving DecidableEq

/-- JavaScript truthiness of a value, as used by the `!amount`-style
checks of `validateExpense`. -/
def truthy : JSValue → Bool
  | .undefined => false
  | .null => false
  | .boolean b => b
  | .number q => q != 0
  | .string s => s != ""

/-- Whether a JS value is a string (`typeof v === 'string'`). -/
def JSValue.isStr : JSValue → Bool
  | .string _ => true
  | _ => false

/-- The underlying string of a JS value. The handler only calls `.trim()` on
values that validation has already proved to be strings, so the `""` default
for non-strings is never reached on those paths. -/
def jsStr : JSValue → String
  | .string s => s
  | _ => ""

/-- Split a character list into its longest decimal-digit prefix and the
rest. -/
def takeDigits : List Char → List Char × List Char
  | [] => ([], [])
  | c :: cs =>
    if c.isDigit then
      let p := takeDigits cs
      (c :: p.1, p.2)
    else ([], c :: cs)

/-- The natural number denoted by a list of decimal digits. -/
def digitsToNat (ds : List Char) : Nat :=
  ds.foldl (fun n c => n * 10 + (c.toNat - 48)) 0

/-- The optional exponent part of a decimal literal (`e`/`E`, optional sign,
digits). A missing or malformed exponent contributes a factor of one, which
matches `parseFloat`'s longest-valid-prefix rule. -/
def parseExponent : List Char → Int
  | [] => 0
  | c :: cs =>
    if c == 'e' || c == 'E' then
      match cs with
      | '-' :: r =>
        let p := takeDigits r
        if p.1.isEmpty then 0 else -(digitsToNat p.1 : Int)
      | '+' :: r =>
        let p := takeDigits r
        if p.1.isEmpty then 0 else (digitsToNat p.1 : Int)
      | r =>
        let p := takeDigits r
        if p.1.isEmpty then 0 else (digitsToNat p.1 : Int)
    else 0

/-- ECMA-262 `parseFloat` on a string: skip leading whitespace, then read the
longest prefix of the form sign, digits, optional point and digits, optional
exponent; `none` models a `NaN` result. The `Infinity` literal is outside
the modelled fragment (no input in this development uses it). -/
def parseFloatString (s : String) : Option Rat :=
  let cs := s.data.dropWhile jsIsWhitespace
  let signed : Bool × List Char :=
    match cs with
    | '-' :: r => (true, r)
    | '+' :: r => (false, r)
    | _ => (false, cs)
  let ip := takeDigits signed.2
  let fp : List Char × List Char :=
    match ip.2 with
    | '.' :: r => takeDigits r
    | _ => ([], ip.2)
  if ip.1.isEmpty && fp.1.isEmpty then none
  else
    let mant : Rat :=
      (digitsToNat ip.1 : Rat) + (digitsToNat fp.1 : Rat) / ((10 : Rat) ^ fp.1.length)
    let e := parseExponent fp.2
    let v : Rat :=
      if 0 ≤ e then mant * (10 : Rat) ^ e.toNat else mant / ((10 : Rat) ^ (-e).toNat)
    some (if signed.1 then -v else v)

/-- `parseFloat(v)` on a JS value, after JS string coercion: a finite JSON
number round-trips through its string form, and `undefined`, `null` and the
booleans coerce to the strings `undefined`, `null`, `true`, `false`, none of
which has a numeric prefix, hence `NaN`. -/
def jsParseFloat : JSValue → Option Rat
  | .number q => some q
  | .string s => parseFloatString s
  | _ => none

/-- The test of the regular expression `^\d{4}-\d{2}-\d{2}$` on a string. -/
def datePatternTest (s : String) : Bool :=
  match s.data with
  | [y1, y2, y3, y4, h1, m1, m2, h2, d1, d2] =>
    y1.isDigit && y2.isDigit && y3.isDigit && y4.isDigit && h1 == '-' &&
    m1.isDigit && m2.isDigit && h2 == '-' && d1.isDigit && d2.isDigit
  | _ => false

/-- `regex.test(v)` for the date pattern on a JS value: a non-string value is
coerced with ToString first, but no string form of a number, boolean, `null`
or `undefined` can match `^\d{4}-\d{2}-\d{2}$` (a JS number's string form
never has an interior hyphen after four digits), so only actual strings can
pass. -/
def jsDateTest : JSValue → Bool
  | .string s => datePatternTest s
  | _ => false

/-- Gregorian leap-year rule. -/
def isLeapYear (y : Nat) : Bool :=
  (y % 4 == 0 && y % 100 != 0) || y % 400 == 0

/-- Number of days in a month of the Gregorian calendar. -/
def daysInMonth (y m : Nat) : Nat :=
  if m == 2 then (if isLeapYear y then 29 else 28)
  else if m == 4 || m == 6 || m == 9 || m == 11 then 30
  else 31

/-- Days since the Unix epoch of a proleptic-Gregorian civil date, the
standard era-based computation (all divisions below act on non-negative
operands for the years in range here, so the rounding convention is
immaterial). -/
def daysFromCivil (y m d : Int) : Int :=
  let yAdj := if m ≤ 2 then y - 1 else y
  let era := (if 0 ≤ yAdj then yAdj else yAdj - 399) / 400
  let yoe := yAdj - era * 400
  let mp := if 2 < m then m - 3 else m + 9
  let doy := (153 * mp + 2) / 5 + d - 1
  let doe := yoe * 365 + yoe / 4 - yoe / 100 + doy
  era * 146097 + doe - 719468

/-- Numeric value of a decimal digit character. -/
def digitVal (c : Char) : Nat := c.toNat - 48

/-- `Date.parse` (equivalently `new Date(s).getTime()`) on the date-only ISO
form `YYYY-MM-DD`, the only shape the handler ever stores: a calendar-valid
date yields its UTC-midnight timestamp in milliseconds, and anything else —
including a string matching the pattern whose month or day is out of range,
such as `2025-13-40` or `2025-02-30` — is an Invalid Date, i.e. `NaN`,
modelled as `none` (V8, the engine Vercel runs, range-checks the fields of
ISO date strings). -/
def jsDateParse (s : String) : Option Int :=
  match s.data with
  | [y1, y2, y3, y4, h1, m1, m2, h2, d1, d2] =>
    if y1.isDigit && y2.isDigit && y3.isDigit && y4.isDigit && h1 == '-' &&
       m1.isDigit && m2.isDigit && h2 == '-' && d1.isDigit && d2.isDigit then
      let y := ((digitVal y1 * 10 + digitVal y2) * 10 + digitVal y3) * 10 + digitVal y4
      let m := digitVal m1 * 10 + digitVal m2
      let d := digitVal d1 * 10 + digitVal d2
      if 1 ≤ m && m ≤ 12 && 1 ≤ d && d ≤ daysInMonth y m then
        some (86400000 * daysFromCivil y m d)
      else none
    else none
  | _ => none

/-- An Expense record as stored in the in-memory array. The `amount` field is
a number by construction (a rational models the JS float exactly for every
value arising here). -/
structure Expense where
  id : String
  amount : Rat
  description : String
  category : String
  date : String
deriving DecidableEq

/-- Seed contents of the module-level store `expenses` (three fixed records
present at process start). -/
def expenses : List Expense :=
  [ { id := "e1", amount := 45.99, description := "Groceries at Trader Joe\u0027s",
      category := "Food", date := "2025-11-28" },
    { id := "e2", amount := 120.00, description := "Electricity Bill",
      category := "Utilities", date := "2025-11-30" },
    { id := "e3", amount := 25.50, description := "Coffee with client",
      category := "Misc", date := "2025-12-01" } ]

/-- The POST body object seen through the destructuring
`const { amount, description, category, date } = data`. -/
structure Payload where
  amount : JSValue
  description : JSValue
  category : JSValue
  date : JSValue
deriving DecidableEq

/-- The payload every field of which destructures to `undefined`: the empty
object, and equally any non-nullish body without these keys. -/
def emptyObject : Payload :=
  ⟨.undefined, .undefined, .undefined, .undefined⟩

/-- Error message of the amount check. -/
def amountMsg : String := "Missing or invalid \u0027amount\u0027. Must be a number."

/-- Error message of the description check. -/
def descriptionMsg : String :=
  "Missing or invalid \u0027description\u0027. Must be a non-empty string."

/-- Error message of the category check. -/
def categoryMsg : String :=
  "Missing or invalid \u0027category\u0027. Must be a non-empty string."

/-- Error message of the date check. -/
def dateMsg : String := "Missing or invalid \u0027date\u0027. Must be in YYYY-MM-DD format."

/-- Condition of `validateExpense`'s first check:
`!amount || isNaN(parseFloat(amount))`. -/
def amountBad (p : Payload) : Bool :=
  !truthy p.amount || (jsParseFloat p.amount).isNone

/-- Condition of the second check: `!description || typeof description !==
'string' || description.trim().length === 0`. -/
def descriptionBad (p : Payload) : Bool :=
  !truthy p.description || !p.description.isStr ||
    (jsTrim (jsStr p.description)).length == 0

/-- Condition of the third check, identical in shape to the description
check. -/
def categoryBad (p : Payload) : Bool :=
  !truthy p.category || !p.category.isStr || (jsTrim (jsStr p.category)).length == 0

/-- Condition of the fourth check: `!date || !/^\d{4}-\d{2}-\d{2}$/.test(date)`. -/
def dateBad (p : Payload) : Bool :=
  !truthy p.date || !jsDateTest p.date

/-- The `validateExpense` helper of both source files: run the four field
checks in order and collect one message per failing check. -/
def validateExpense (data : Payload) : List String :=
  (if amountBad data then [amountMsg] else []) ++
  (if descriptionBad data then [descriptionMsg] else []) ++
  (if categoryBad data then [categoryMsg] else []) ++
  (if dateBad data then [dateMsg] else [])

/-- The HTTP method of a request, with `other` covering everything that is
not OPTIONS, GET or POST. -/
inductive Method where
  | options
  | get
  | post
  | other (name : String)
deriving DecidableEq

/-- An inbound request: its method and, for POST, the parsed JSON body.
`none` models a nullish `req.body` (`undefined` or `null`, whose
destructuring throws); `some` models any other body, its four fields read by
destructuring. -/
structure Request where
  method : Method
  body : Option Payload
deriving DecidableEq

/-- The JSON body shapes the handler can emit. -/
inductive ResponseBody where
  | empty
  | listOk (data : List Expense)
  | created (message : String) (data : Expense)
  | invalid (error : String) (details : List String)
  | errored (error : String)
deriving DecidableEq

/-- An HTTP response: status code and JSON body. -/
structure Response where
  status : Nat
  body : ResponseBody
deriving DecidableEq

/-- Error message of the catch-all 500 branch. -/
def serverErrorMsg : String := "Internal Server Error during expense creation"

/-- The GET comparator `(a, b) => new Date(b.date) - new Date(a.date)`
composed with the sort's SortCompare step: per ECMA-262 a `NaN` comparator
result is treated as `+0`, so any Invalid-Date operand compares equal. -/
def sortCompare (a b : Expense) : Int :=
  match jsDateParse a.date, jsDateParse b.date with
  | some ta, some tb => tb - ta
  | _, _ => 0

/-- Insert an element into an already-sorted prefix, after every element the
comparator does not place strictly later — the stable placement ECMA-262
requires of `Array.prototype.sort`. -/
def sortInsert (x : Expense) : List Expense → List Expense
  | [] => [x]
  | y :: l => if sortCompare x y < 0 then x :: y :: l else y :: sortInsert x l

/-- `expenses.sort(comparator)`, modelled as a stable insertion sort (the
sort is required to be stable since ES2019; for the array sizes arising here
V8's TimSort runs a stable binary insertion sort with the same result). The
JS sort reorders the array in place and returns that same array. -/
def jsSort (l : List Expense) : List Expense :=
  l.foldl (fun acc x => sortInsert x acc) []

/-- The Expense built on the successful POST path, `now` standing for
`Date.now()`. Validation has guaranteed that `amount` parses (so the `getD`
default is never the value used) and that `description` and `category` are
strings. -/
def buildExpense (now : Nat) (p : Payload) : Expense :=
  { id := "e" ++ toString now,
    amount := (jsParseFloat p.amount).getD 0,
    description := jsTrim (jsStr p.description),
    category := jsTrim (jsStr p.category),
    date := jsStr p.date }

/-- The handler of `src/api/expense.js` (`module.exports`), as a function of
`Date.now()`, the request and the current store, returning the response and
the store afterwards. The GET branch stores back the in-place-sorted array;
the POST branch validates `newExpense || ...` with the empty object standing
in for a nullish body, and appends on success. The catch-all 500 branch is
unreachable here: after validation passes, no remaining operation can
throw. -/
def handleExpense (now : Nat) (req : Request) (store : List Expense) :
    Response × List Expense :=
  match req.method with
  | .options => (⟨204, .empty⟩, store)
  | .get =>
    let sorted := jsSort store
    (⟨200, .listOk sorted⟩, sorted)
  | .post =>
    let newExpense := req.body.getD emptyObject
    let validationErrors := validateExpense newExpense
    if 0 < validationErrors.length then
      (⟨400, .invalid "Validation Failed" validationErrors⟩, store)
    else
      let expense := buildExpense now newExpense
      (⟨201, .created "Expense added successfully" expense⟩, store ++ [expense])
  | .other name => (⟨405, .errored ("Method " ++ name ++ " Not Allowed")⟩, store)

/-- The handler of `src/api/expenses.js` (`module.exports`). It differs from
`handleExpense` in one place: the POST branch calls
`validateExpense(newExpense)` without the `|| ...` fallback, so a nullish
body throws a TypeError at the destructuring inside `validateExpense`, is
caught, and produces the 500 response with the store untouched. -/
def handleExpenses (now : Nat) (req : Request) (store : List Expense) :
    Response × List Expense :=
  match req.method with
  | .options => (⟨204, .empty⟩, store)
  | .get =>
    let sorted := jsSort store
    (⟨200, .listOk sorted⟩, sorted)
  | .post =>
    match req.body with
    | none => (⟨500, .errored serverErrorMsg⟩, store)
    | some newExpense =>
      let validationErrors := validateExpense newExpense
      if 0 < validationErrors.length then
        (⟨400, .invalid "Validation Failed" validationErrors⟩, store)
      else
        let expense := buildExpense now newExpense
        (⟨201, .created "Expense added successfully" expense⟩, store ++ [expense])
  | .other name => (⟨405, .errored ("Method " ++ name ++ " Not Allowed")⟩, store)

/-- Timestamp of a stored date, with `0` standing for an Invalid Date (only
used to state order; every theorem using it restricts to parseable dates or
compares concrete records). -/
def dateVal (e : Expense) : Int :=
  (jsDateParse e.date).getD 0

/-- The `YYYYMMDD` numeral of a pattern-valid date string: the date order the
specification describes, well-defined for every string the date regex
admits. -/
def dateKeyNum (s : String) : Nat :=
  match s.data with
  | [y1, y2, y3, y4, _, m1, m2, _, d1, d2] =>
    ((((digitVal y1 * 10 + digitVal y2) * 10 + digitVal y3) * 10 + digitVal y4) * 100 +
      (digitVal m1 * 10 + digitVal m2)) * 100 + (digitVal d1 * 10 + digitVal d2)
  | _ => 0

/-- A record with a pattern-valid but calendar-invalid date, exactly as a
validated POST can append (month 13 passes the format regex). -/
def badDateExpense : Expense :=
  { id := "e4", amount := 10, description := "Taxi", category := "Travel",
    date := "2025-13-40" }

/-- The seed store after one successful POST of `badDateExpense`. -/
def storeWithBadDate : List Expense :=
  expenses ++ [badDateExpense]

/-- Stored-record well-formedness: description and category non-empty and
fixed by trimming, date matching the regex, id starting with the letter e
(`amount` is a number by the type of `Expense.amount`). -/
def ValidStored (e : Expense) : Prop :=
  e.description ≠ "" ∧ jsTrim e.description = e.description ∧
  e.category ≠ "" ∧ jsTrim e.category = e.category ∧
  datePatternTest e.date = true ∧
  e.id.data.head? = some 'e'

instance (e : Expense) : Decidable (ValidStored e) := by
  unfold ValidStored; infer_instance

/-- Store states reachable from the seed data by any sequence of handler
invocations of `src/api/expense.js`. -/
inductive Reachable : List Expense → Prop where
  | seed : Reachable expenses
  | step (now : Nat) (req : Request) (st : List Expense) :
      Reachable st → Reachable (handleExpense now req st).2

/-- The payload of the numeric-prefix scenario: amount `12abc` with otherwise
valid fields. -/
def c10Payload : Payload :=
  ⟨.string "12abc", .string "Lunch", .string "Food", .string "2025-12-05"⟩

/-- A fully valid POST payload (amount as the string `50`, description with
surrounding whitespace). -/
def okPayload : Payload :=
  ⟨.string "50", .string " Lunch ", .string "Food", .string "2025-12-05"⟩

/-- A payload failing the amount, description and date checks while the
category check passes. -/
def threeBadPayload : Payload :=
  ⟨.string "abc", .string "", .string "Food", .string "2025-1-1"⟩

theorem trimRight_eq_rdropWhile (l : List Char) :
    trimRight l = List.rdropWhile jsIsWhitespace l := rfl

theorem dropWhile_cons_eq_self {p : Char → Bool} {c : Char} {l : List Char}
    (h : List.dropWhile p (c :: l) = c :: l) : p c = false := by
  rw [List.dropWhile_cons] at h
  by_cases hc : p c = true
  · rw [if_pos hc] at h
    have hlen := (List.dropWhile_sublist (l := l) (p := p)).length_le
    have := congrArg List.length h
    simp at this
    omega
  · simpa using hc

theorem dropWhile_of_prefix_eq_self {p : Char → Bool} {A B : List Char}
    (hA : A.dropWhile p = A) (hB : B <+: A) : B.dropWhile p = B := by
  cases B with
  | nil => rfl
  | cons c bs =>
    obtain ⟨t, ht⟩ := hB
    subst ht
    have hc : p c = false := dropWhile_cons_eq_self hA
    rw [List.dropWhile_cons, hc]
    simp

theorem jsTrimChars_idem (l : List Char) :
    jsTrimChars (jsTrimChars l) = jsTrimChars l := by
  unfold jsTrimChars
  have h1 : (trimRight (l.dropWhile jsIsWhitespace)).dropWhile jsIsWhitespace =
      trimRight (l.dropWhile jsIsWhitespace) := by
    apply dropWhile_of_prefix_eq_self (A := l.dropWhile jsIsWhitespace)
    · exact List.dropWhile_idempotent _ _
    · rw [trimRight_eq_rdropWhile]
      exact List.rdropWhile_prefix _ _
  rw [h1, trimRight_eq_rdropWhile, trimRight_eq_rdropWhile, List.rdropWhile_idempotent]

theorem jsTrim_idem (s : String) : jsTrim (jsTrim s) = jsTrim s :=
  congrArg String.mk (jsTrimChars_idem s.data)

theorem sortInsert_mem {z x : Expense} {l : List Expense}
    (h : z ∈ sortInsert x l) : z = x ∨ z ∈ l := by
  induction l with
  | nil => simpa [sortInsert] using h
  | cons y ys ih =>
    rw [sortInsert] at h
    split at h
    · simpa [List.mem_cons] using h
    · rcases List.mem_cons.mp h with hz | hz
      · right
        exact hz ▸ List.mem_cons_self y ys
      · rcases ih hz with h1 | h1
        · exact Or.inl h1
        · exact Or.inr (List.mem_cons_of_mem y h1)

theorem sortInsert_perm (x : Expense) (l : List Expense) :
    (sortInsert x l).Perm (x :: l) := by
  induction l with
  | nil => simp [sortInsert]
  | cons y ys ih =>
    rw [sortInsert]
    split
    · exact List.Perm.refl _
    · exact (ih.cons y).trans (List.Perm.swap x y ys)

theorem sortFold_perm (l acc : List Expense) :
    (l.foldl (fun acc x => sortInsert x acc) acc).Perm (acc ++ l) := by
  induction l generalizing acc with
  | nil => simp
  | cons x xs ih =>
    rw [List.foldl_cons]
    refine (ih (sortInsert x acc)).trans ?_
    refine (List.Perm.append_right xs (sortInsert_perm x acc)).trans ?_
    exact List.perm_middle.symm

theorem jsSort_perm (l : List Expense) : (jsSort l).Perm l := by
  simpa using sortFold_perm l []

theorem sortCompare_neg {x y : Expense}
    (hx : (jsDateParse x.date).isSome = true)
    (hy : (jsDateParse y.date).isSome = true) :
    sortCompare x y < 0 ↔ dateVal y < dateVal x := by
  obtain ⟨tx, hx'⟩ := Option.isSome_iff_exists.mp hx
  obtain ⟨ty, hy'⟩ := Option.isSome_iff_exists.mp hy
  rw [sortCompare, hx', hy']
  simp only [dateVal, hx', hy', Option.getD_some]
  omega

theorem sortInsert_pairwise {x : Expense} {l : List Expense}
    (hx : (jsDateParse x.date).isSome = true)
    (hl : ∀ e ∈ l, (jsDateParse e.date).isSome = true)
    (hs : l.Pairwise (fun a b => dateVal b ≤ dateVal a)) :
    (sortInsert x l).Pairwise (fun a b => dateVal b ≤ dateVal a) := by
  induction l with
  | nil => simp [sortInsert]
  | cons y ys ih =>
    rcases List.pairwise_cons.mp hs with ⟨hy, hys⟩
    have hyv : (jsDateParse y.date).isSome = true := hl y (List.mem_cons_self y ys)
    rw [sortInsert]
    by_cases hcmp : sortCompare x y < 0
    · rw [if_pos hcmp]
      have hxy : dateVal y < dateVal x := (sortCompare_neg hx hyv).mp hcmp
      refine List.pairwise_cons.mpr ⟨?_, hs⟩
      intro z hz
      rcases List.mem_cons.mp hz with rfl | hz'
      · exact le_of_lt hxy
      · exact le_trans (hy z hz') (le_of_lt hxy)
    · rw [if_neg hcmp]
      have hxy : dateVal x ≤ dateVal y := by
        have := (sortCompare_neg hx hyv).not.mp hcmp
        omega
      refine List.pairwise_cons.mpr
        ⟨?_, ih (fun e he => hl e (List.mem_cons_of_mem y he)) hys⟩
      intro z hz
      rcases sortInsert_mem hz with rfl | hz'
      · exact hxy
      · exact hy z hz'

theorem sortFold_pairwise (l acc : List Expense)
    (hl : ∀ e ∈ l, (jsDateParse e.date).isSome = true)
    (hacc : ∀ e ∈ acc, (jsDateParse e.date).isSome = true)
    (hs : acc.Pairwise (fun a b => dateVal b ≤ dateVal a)) :
    (l.foldl (fun acc x => sortInsert x acc) acc).Pairwise
      (fun a b => dateVal b ≤ dateVal a) := by
  induction l generalizing acc with
  | nil => simpa using hs
  | cons x xs ih =>
    rw [List.foldl_cons]
    have hxv : (jsDateParse x.date).isSome = true := hl x (List.mem_cons_self x xs)
    apply ih
    · exact fun e he => hl e (List.mem_cons_of_mem x he)
    · intro e he
      rcases sortInsert_mem he with rfl | he'
      · exact hxv
      · exact hacc e he'
    · exact sortInsert_pairwise hxv hacc hs

theorem jsSort_pairwise (l : List Expense)
    (hl : ∀ e ∈ l, (jsDateParse e.date).isSome = true) :
    (jsSort l).Pairwise (fun a b => dateVal b ≤ dateVal a) := by
  exact sortFold_pairwise l [] hl (by simp) (by simp)

theorem mem_validate_amount (p : Payload) :
    amountMsg ∈ validateExpense p ↔ amountBad p = true := by
  unfold validateExpense
  cases hA : amountBad p <;> cases hD : descriptionBad p <;>
    cases hC : categoryBad p <;> cases hT : dateBad p <;>
      simp +decide [amountMsg, descriptionMsg, categoryMsg, dateMsg]

theorem mem_validate_date (p : Payload) :
    dateMsg ∈ validateExpense p ↔ dateBad p = true := by
  unfold validateExpense
  cases hA : amountBad p <;> cases hD : descriptionBad p <;>
    cases hC : categoryBad p <;> cases hT : dateBad p <;>
      simp +decide [amountMsg, descriptionMsg, categoryMsg, dateMsg]

theorem validate_eq_nil_iff (p : Payload) :
    validateExpense p = [] ↔
      amountBad p = false ∧ descriptionBad p = false ∧
      categoryBad p = false ∧ dateBad p = false := by
  unfold validateExpense
  cases hA : amountBad p <;> cases hD : descriptionBad p <;>
    cases hC : categoryBad p <;> cases hT : dateBad p <;> simp

theorem validate_counts (p : Payload) :
    (validateExpense p).count amountMsg = (if amountBad p then 1 else 0) ∧
    (validateExpense p).count descriptionMsg = (if descriptionBad p then 1 else 0) ∧
    (validateExpense p).count categoryMsg = (if categoryBad p then 1 else 0) ∧
    (validateExpense p).count dateMsg = (if dateBad p then 1 else 0) ∧
    (validateExpense p).length =
      ((if amountBad p then 1 else 0) + (if descriptionBad p then 1 else 0) +
        (if categoryBad p then 1 else 0) + (if dateBad p then 1 else 0)) := by
  unfold validateExpense
  cases hA : amountBad p <;> cases hD : descriptionBad p <;>
    cases hC : categoryBad p <;> cases hT : dateBad p <;>
      simp +decide [amountMsg, descriptionMsg, categoryMsg, dateMsg, List.count_cons]

/-- C6: the date field passes validation exactly when it is present (truthy)
and matches the four-digits, hyphen, two-digits, hyphen, two-digits pattern;
calendar correctness is never checked, so the regex also admits
`2025-13-40` and `2025-02-30`. -/
theorem date_validation_format_only :
    (∀ p : Payload, dateMsg ∉ validateExpense p ↔
      (truthy p.date = true ∧ jsDateTest p.date = true)) ∧
    jsDateTest (.string "2025-13-40") = true ∧
    jsDateTest (.string "2025-02-30") = true := by
  refine ⟨?_, by decide, by decide⟩
  intro p
  rw [show (dateMsg ∉ validateExpense p) = ¬(dateMsg ∈ validateExpense p) from rfl,
    mem_validate_date p]
  simp [dateBad]

/-- C7: the amount check fails exactly when the field is falsy (missing,
zero, empty string, and so on) or does not parse as a float; in particular a
nonzero negative number passes. -/
theorem amount_validation_iff :
    (∀ p : Payload, amountMsg ∈ validateExpense p ↔
      (truthy p.amount = false ∨ jsParseFloat p.amount = none)) ∧
    amountMsg ∉ validateExpense
      ⟨.number (-5), .string "x", .string "y", .string "2025-01-02"⟩ := by
  constructor
  · intro p
    rw [mem_validate_amount p]
    simp [amountBad, Option.isNone_iff_eq_none]
  · rw [show (amountMsg ∉ validateExpense
        ⟨.number (-5), .string "x", .string "y", .string "2025-01-02"⟩) =
      ¬(amountMsg ∈ validateExpense
        ⟨.number (-5), .string "x", .string "y", .string "2025-01-02"⟩) from rfl,
      mem_validate_amount]
    simp [amountBad, truthy, jsParseFloat]

/-- C3: a POST whose payload passes all four validations responds 201 and
appends exactly the record built from the input: amount the float parse of
the input amount, description and category the trimmed input strings, date
verbatim, id the letter e followed by `Date.now()`. -/
theorem post_success_fields (now : Nat) (store : List Expense) (p : Payload)
    (q : Rat) (ds cs dt : String)
    (hv : validateExpense p = [])
    (hq : jsParseFloat p.amount = some q)
    (hd : p.description = .string ds)
    (hc : p.category = .string cs)
    (hdt : p.date = .string dt) :
    handleExpense now ⟨.post, some p⟩ store =
      (⟨201, .created "Expense added successfully"
          ⟨"e" ++ toString now, q, jsTrim ds, jsTrim cs, dt⟩⟩,
        store ++ [⟨"e" ++ toString now, q, jsTrim ds, jsTrim cs, dt⟩]) := by
  have hb : buildExpense now p = ⟨"e" ++ toString now, q, jsTrim ds, jsTrim cs, dt⟩ := by
    unfold buildExpense
    rw [hq, hd, hc, hdt]
    rfl
  unfold handleExpense
  simp [hv, hb]

/-- Witness for C3 at the concrete payload `okPayload`. -/
theorem post_success_fields_witness :
    validateExpense okPayload = [] ∧
    handleExpense 123 ⟨.post, some okPayload⟩ expenses =
      (⟨201, .created "Expense added successfully"
          ⟨"e" ++ toString 123, 50, jsTrim " Lunch ", jsTrim "Food", "2025-12-05"⟩⟩,
        expenses ++
          [⟨"e" ++ toString 123, 50, jsTrim " Lunch ", jsTrim "Food", "2025-12-05"⟩]) := by
  refine ⟨by decide, ?_⟩
  exact post_success_fields 123 expenses okPayload 50 " Lunch " "Food" "2025-12-05"
    (by decide)
    (by simp +decide [okPayload, jsParseFloat, parseFloatString, jsIsWhitespace,
      takeDigits, digitsToNat, parseExponent])
    rfl rfl rfl

/-- C4: a POST with at least one invalid field responds 400 with error
`Validation Failed` and leaves the store unchanged; all four checks run, and
the details list holds exactly one message per failing field (the counts of
the four distinct messages are the failure indicators and add up to the list
length). -/
theorem post_validation_failure_details (now : Nat) (store : List Expense)
    (p : Payload) (h : validateExpense p ≠ []) :
    (handleExpense now ⟨.post, some p⟩ store).1 =
      ⟨400, .invalid "Validation Failed" (validateExpense p)⟩ ∧
    (handleExpense now ⟨.post, some p⟩ store).2 = store ∧
    (validateExpense p).count amountMsg = (if amountBad p then 1 else 0) ∧
    (validateExpense p).count descriptionMsg = (if descriptionBad p then 1 else 0) ∧
    (validateExpense p).count categoryMsg = (if categoryBad p then 1 else 0) ∧
    (validateExpense p).count dateMsg = (if dateBad p then 1 else 0) ∧
    (validateExpense p).length =
      ((if amountBad p then 1 else 0) + (if descriptionBad p then 1 else 0) +
        (if categoryBad p then 1 else 0) + (if dateBad p then 1 else 0)) := by
  have hlen : 0 < (validateExpense p).length := List.length_pos.mpr h
  have hresp : handleExpense now ⟨.post, some p⟩ store =
      (⟨400, .invalid "Validation Failed" (validateExpense p)⟩, store) := by
    unfold handleExpense
    simp [hlen]
  obtain ⟨h1, h2, h3, h4, h5⟩ := validate_counts p
  exact ⟨by rw [hresp], by rw [hresp], h1, h2, h3, h4, h5⟩

/-- Witness for C4 at a payload failing the amount, description and date
checks (and only those), hence exactly three messages. -/
theorem post_validation_failure_details_witness :
    validateExpense threeBadPayload ≠ [] ∧
    ((handleExpense 9 ⟨.post, some threeBadPayload⟩ expenses).1 =
        ⟨400, .invalid "Validation Failed" (validateExpense threeBadPayload)⟩ ∧
      (handleExpense 9 ⟨.post, some threeBadPayload⟩ expenses).2 = expenses ∧
      (validateExpense threeBadPayload).count amountMsg =
        (if amountBad threeBadPayload then 1 else 0) ∧
      (validateExpense threeBadPayload).count descriptionMsg =
        (if descriptionBad threeBadPayload then 1 else 0) ∧
      (validateExpense threeBadPayload).count categoryMsg =
        (if categoryBad threeBadPayload then 1 else 0) ∧
      (validateExpense threeBadPayload).count dateMsg =
        (if dateBad threeBadPayload then 1 else 0) ∧
      (validateExpense threeBadPayload).length =
        ((if amountBad threeBadPayload then 1 else 0) +
          (if descriptionBad threeBadPayload then 1 else 0) +
          (if categoryBad threeBadPayload then 1 else 0) +
          (if dateBad threeBadPayload then 1 else 0))) ∧
    (validateExpense threeBadPayload).length = 3 :=
  ⟨by decide, post_validation_failure_details 9 expenses threeBadPayload (by decide),
    by decide⟩

/-- C5: POST is atomic in both handler modules: it either responds 201 and
appends exactly one record, or responds 400 or 500 and leaves the store
exactly as it was. -/
theorem post_atomic (now : Nat) (b : Option Payload) (store : List Expense) :
    (((handleExpense now ⟨.post, b⟩ store).1.status = 201 ∧
        ∃ e, (handleExpense now ⟨.post, b⟩ store).2 = store ++ [e]) ∨
      (((handleExpense now ⟨.post, b⟩ store).1.status = 400 ∨
          (handleExpense now ⟨.post, b⟩ store).1.status = 500) ∧
        (handleExpense now ⟨.post, b⟩ store).2 = store)) ∧
    (((handleExpenses now ⟨.post, b⟩ store).1.status = 201 ∧
        ∃ e, (handleExpenses now ⟨.post, b⟩ store).2 = store ++ [e]) ∨
      (((handleExpenses now ⟨.post, b⟩ store).1.status = 400 ∨
          (handleExpenses now ⟨.post, b⟩ store).1.status = 500) ∧
        (handleExpenses now ⟨.post, b⟩ store).2 = store)) := by
  constructor
  · unfold handleExpense
    by_cases hv : 0 < (validateExpense (b.getD emptyObject)).length
    · right
      simp [hv]
    · left
      simp [hv]
  · unfold handleExpenses
    cases b with
    | none => right; simp
    | some p =>
      by_cases hv : 0 < (validateExpense p).length
      · right
        simp [hv]
      · left
        simp [hv]

/-- C10: the payload with amount `12abc` passes validation (`parseFloat`
reads the numeric prefix, so `isNaN` is false), and the created expense's
amount is 12, the float parse of the prefix alone. -/
theorem numeric_prefix_amount_accepted :
    validateExpense c10Payload = [] ∧
    jsParseFloat (JSValue.string "12abc") = some 12 ∧
    handleExpense 7 ⟨.post, some c10Payload⟩ expenses =
      (⟨201, .created "Expense added successfully" (buildExpense 7 c10Payload)⟩,
        expenses ++ [buildExpense 7 c10Payload]) ∧
    (buildExpense 7 c10Payload).amount = 12 := by
  have hp : jsParseFloat (JSValue.string "12abc") = some 12 := by
    simp +decide [jsParseFloat, parseFloatString, jsIsWhitespace, takeDigits,
      digitsToNat, parseExponent]
  have hv : validateExpense c10Payload = [] := by decide
  refine ⟨hv, hp, ?_, ?_⟩
  · unfold handleExpense
    simp [hv]
  · unfold buildExpense
    rw [show c10Payload.amount = JSValue.string "12abc" from rfl, hp]
    rfl

/-- C1 counterexample: a GET on the seed store already reorders the stored
list (`Array.prototype.sort` sorts in place), so the stored order does not
survive a GET. -/
theorem get_reorders_seed_store :
    (handleExpense 0 ⟨.get, none⟩ expenses).2 ≠ expenses := by
  decide

/-- C1 amended: a GET keeps exactly the stored records (the new store is a
permutation of the old one — no record is added or dropped) but stores them
back in comparator order, which it also returns; only a successful POST ever
appends. -/
theorem get_stores_sorted_permutation (now : Nat) (b : Option Payload)
    (store : List Expense) :
    (handleExpense now ⟨.get, b⟩ store).2 = jsSort store ∧
    ((handleExpense now ⟨.get, b⟩ store).2).Perm store ∧
    (handleExpense now ⟨.get, b⟩ store).1 = ⟨200, .listOk (jsSort store)⟩ :=
  ⟨rfl, jsSort_perm store, rfl⟩

/-- C2 counterexample: every date in `storeWithBadDate` passes the format
validation, yet the list GET returns is not ordered by date non-increasing —
the record dated `2025-13-40` compares as `NaN` (treated as equal) against
everything and ends up last, after `2025-11-28`. -/
theorem get_sort_breaks_on_calendar_invalid_date :
    storeWithBadDate.all (fun e => datePatternTest e.date) = true ∧
    (handleExpense 0 ⟨.get, none⟩ storeWithBadDate).1 =
      ⟨200, .listOk (jsSort storeWithBadDate)⟩ ∧
    ¬ (jsSort storeWithBadDate).Pairwise
        (fun a b => dateKeyNum b.date ≤ dateKeyNum a.date) :=
  ⟨by decide, rfl, by decide⟩

/-- C2 amended: whenever every stored date is calendar-valid (parses to a
timestamp), the list GET returns is ordered by date non-increasing. -/
theorem get_sorted_desc_of_parseable_dates (now : Nat) (b : Option Payload)
    (store : List Expense)
    (h : ∀ e ∈ store, (jsDateParse e.date).isSome = true) :
    (handleExpense now ⟨.get, b⟩ store).1 = ⟨200, .listOk (jsSort store)⟩ ∧
    (jsSort store).Pairwise (fun a b => dateVal b ≤ dateVal a) :=
  ⟨rfl, jsSort_pairwise store h⟩

/-- Witness for C2 (amended) at the seed store, whose three dates are all
calendar-valid. -/
theorem get_sorted_desc_witness :
    (∀ e ∈ expenses, (jsDateParse e.date).isSome = true) ∧
    ((handleExpense 0 ⟨.get, none⟩ expenses).1 = ⟨200, .listOk (jsSort expenses)⟩ ∧
      (jsSort expenses).Pairwise (fun a b => dateVal b ≤ dateVal a)) :=
  ⟨by decide, get_sorted_desc_of_parseable_dates 0 none expenses (by decide)⟩

/-- C8 counterexample: on a POST whose body is nullish the two modules
disagree — `expense.js` substitutes the empty object and answers 400, while
`expenses.js` lets the destructuring throw and answers 500. -/
theorem handlers_differ_on_nullish_body :
    handleExpense 0 ⟨.post, none⟩ expenses ≠ handleExpenses 0 ⟨.post, none⟩ expenses := by
  decide

/-- C8 amended: the two handler modules agree on every request except a POST
with a nullish body: same response and same resulting store. -/
theorem handlers_agree_on_present_body (now : Nat) (req : Request)
    (store : List Expense) (h : req.method = .post → req.body ≠ none) :
    handleExpense now req store = handleExpenses now req store := by
  obtain ⟨m, b⟩ := req
  cases m with
  | options => rfl
  | get => rfl
  | other n => rfl
  | post =>
    cases b with
    | none => exact absurd rfl (h rfl)
    | some p => rfl

/-- Witness for C8 (amended) at a GET request on the seed store. -/
theorem handlers_agree_witness :
    ((Request.mk .get none).method = .post → (Request.mk .get none).body ≠ none) ∧
    handleExpense 0 ⟨.get, none⟩ expenses = handleExpenses 0 ⟨.get, none⟩ expenses :=
  ⟨(fun h => nomatch h), handlers_agree_on_present_body 0 ⟨.get, none⟩ expenses
    (fun h => nomatch h)⟩

theorem string_ne_empty_of_length_ne_zero {s : String} (h : ¬s.length = 0) :
    s ≠ "" := by
  intro hs
  rw [hs] at h
  exact h rfl

theorem datePatternTest_of_jsDateTest {v : JSValue} (h : jsDateTest v = true) :
    datePatternTest (jsStr v) = true := by
  cases v <;> exact h

theorem id_head_e (now : Nat) : ("e" ++ toString now).data.head? = some 'e' := by
  have h : ("e" ++ toString now).data = 'e' :: (toString now).data := by
    rw [String.data_append]
    rfl
  rw [h]
  rfl

theorem buildExpense_valid (now : Nat) {p : Payload}
    (h : validateExpense p = []) : ValidStored (buildExpense now p) := by
  obtain ⟨_hA, hD, hC, hT⟩ := (validate_eq_nil_iff p).mp h
  simp only [descriptionBad, Bool.or_eq_false_iff, Bool.not_eq_false',
    beq_iff_eq] at hD
  simp only [categoryBad, Bool.or_eq_false_iff, Bool.not_eq_false',
    beq_iff_eq] at hC
  simp only [dateBad, Bool.or_eq_false_iff, Bool.not_eq_false'] at hT
  refine ⟨?_, ?_, ?_, ?_, ?_, ?_⟩
  · exact string_ne_empty_of_length_ne_zero (by simpa using hD.2)
  · exact jsTrim_idem (jsStr p.description)
  · exact string_ne_empty_of_length_ne_zero (by simpa using hC.2)
  · exact jsTrim_idem (jsStr p.category)
  · exact datePatternTest_of_jsDateTest hT.2
  · exact id_head_e now

/-- C9: every store reachable from the seed data by handler invocations
holds only well-formed records — description and category non-empty and
equal to their trimmed form, date matching the `YYYY-MM-DD` regex, id
starting with the letter e (and amount a number by the type of
`Expense.amount`). -/
theorem reachable_store_valid (st : List Expense) (h : Reachable st) :
    ∀ e ∈ st, ValidStored e := by
  induction h with
  | seed => decide
  | step now req st0 _hr ih =>
    obtain ⟨m, b⟩ := req
    cases m with
    | options => exact ih
    | other n => exact ih
    | get =>
      intro e he
      exact ih e ((jsSort_perm st0).subset he)
    | post =>
      intro e he
      by_cases hv : 0 < (validateExpense (b.getD emptyObject)).length
      · have h2 : (handleExpense now ⟨.post, b⟩ st0).2 = st0 := by
          unfold handleExpense
          simp [hv]
        rw [h2] at he
        exact ih e he
      · have hnil : validateExpense (b.getD emptyObject) = [] := by
          cases hE : validateExpense (b.getD emptyObject) with
          | nil => rfl
          | cons a l => rw [hE] at hv; simp at hv
        have h2 : (handleExpense now ⟨.post, b⟩ st0).2 =
            st0 ++ [buildExpense now (b.getD emptyObject)] := by
          unfold handleExpense
          simp [hv]
        rw [h2] at he
        rcases List.mem_append.mp he with he' | he'
        · exact ih e he'
        · have heq : e = buildExpense now (b.getD emptyObject) := by
            simpa using he'
          rw [heq]
          exact buildExpense_valid now hnil

/-- Witness for C9: the seed store is reachable and its first record is
well-formed. -/
theorem reachable_store_valid_witness :
    Reachable expenses ∧
    ValidStored { id := "e1", amount := 45.99,
                  description := "Groceries at Trader Joe\u0027s",
                  category := "Food", date := "2025-11-28" } :=
  ⟨Reachable.seed, reachable_store_valid expenses Reachable.seed _
    (by unfold expenses; exact List.mem_cons_self _ _)⟩

end ExpenseApi
